import Mathlib

/-!
Shallow embedding of the tox cookie / onion-request-1 packet core
(src/toxcore/dht/packet/cookie.rs, src/toxcore/onion/packet/onion_request_1.rs)
and the external pieces they consume (crypto primitives, IpPort and
OnionReturn codecs, size constants), modelled from the specification where
the source is not part of the excerpt.

Bytes are modelled as `Nat` (a `u8` is a value `< 256`; parsers never
inspect byte bounds, so lists of naturals are adequate). Parsers follow
nom semantics: `Option (α × List Nat)` is `IResult`, with `none` standing
for both `Incomplete` and `Error` (the distinction is collapsed by every
caller in the source). Serializers produce the written byte list; where
the source writes into a fixed-capacity stack buffer and unwraps, the
capacity check is modelled explicitly.
-/

/-- The number of bytes in a secretbox / curve25519 nonce. -/
def NONCEBYTES : Nat := 24

/-- The number of bytes in a public key. -/
def PUBLICKEYBYTES : Nat := 32

/-- The number of bytes of the authentication tag appended by sealing. -/
def MACBYTES : Nat := 16

/-- A 24-byte nonce. -/
def Nonce : Type := { l : List Nat // l.length = NONCEBYTES }

instance : DecidableEq Nonce := fun a b =>
  decidable_of_iff (a.val = b.val) Subtype.ext_iff.symm

/-- A 32-byte curve25519 public key. -/
def PublicKey : Type := { l : List Nat // l.length = PUBLICKEYBYTES }

instance : DecidableEq PublicKey := fun a b =>
  decidable_of_iff (a.val = b.val) Subtype.ext_iff.symm

/-- Modelled from the spec: a symmetric secretbox key (key material is
owned by the caller and treated as opaque; modelled as an unbounded
natural so that distinct keys are always distinguishable). -/
abbrev Key : Type := Nat

/-- Modelled from the spec: a precomputed Diffie-Hellman shared secret,
opaque to this core exactly like a symmetric key. -/
abbrev PrecomputedKey : Type := Nat

/-- Modelled from the spec: the 16-byte authentication tag of an ideal
authenticated-encryption scheme. The first entry determines the key; under
the idealization two distinct keys never authenticate the same blob. -/
def authTag (k : Key) : List Nat :=
  k :: List.replicate (MACBYTES - 1) 0

/-- Modelled from the spec: `secretbox::seal` / `seal_precomputed` -
authenticated encryption producing plaintext-length + 16 bytes of
ciphertext. The idealized ciphertext is the plaintext followed by the
authentication tag. -/
def secretbox_seal (m : List Nat) (k : Key) : List Nat :=
  m ++ authTag k

/-- Modelled from the spec: `secretbox::open` / `open_precomputed` -
authenticated decryption; fails (returns `none`) unless the trailing
16-byte tag authenticates under the supplied key. -/
def secretbox_open (c : List Nat) (k : Key) : Option (List Nat) :=
  if MACBYTES ≤ c.length then
    if c.drop (c.length - MACBYTES) = authTag k then
      some (c.take (c.length - MACBYTES))
    else none
  else none

/-- Modelled from the spec: a SHA-512 digest, an opaque value compared
only for equality. -/
structure Digest where
  data : List Nat
deriving DecidableEq

/-- Modelled from the spec: `sha512::hash`, a collision-resistant hash;
idealized as an injective function into opaque digests. -/
def sha512_hash (l : List Nat) : Digest := ⟨l⟩

/-- The error kind used by every failure path of the excerpt:
`std::io::ErrorKind::Other`. -/
inductive ErrorKind where
  | other
deriving DecidableEq

/-- A `std::io::Error`: an error kind plus the diagnostic message string.
The `{:?}` detail interpolated into some messages is elided; the static
message text before the interpolation is kept. -/
structure IoError where
  kind : ErrorKind
  msg : String
deriving DecidableEq

/-- Error produced when `secretbox::open` fails in
`EncryptedCookie::get_payload`. -/
def cookieDecryptError : IoError := ⟨ErrorKind.other, "Cookie decrypt error."⟩

/-- Error produced when `Cookie::from_bytes` fails on the decrypted bytes
in `EncryptedCookie::get_payload`. -/
def cookieDeserializeError : IoError :=
  ⟨ErrorKind.other, "Cookie return deserialize error"⟩

/-- Error produced when `open_precomputed` fails in
`OnionRequest1::get_payload`. -/
def onionDecryptError : IoError :=
  ⟨ErrorKind.other, "OnionRequest1 decrypt error"⟩

/-- Error produced when `OnionRequest1Payload::from_bytes` fails on the
decrypted bytes in `OnionRequest1::get_payload`. -/
def onionDeserializeError : IoError :=
  ⟨ErrorKind.other, "OnionRequest1Payload deserialize error"⟩

/-- nom `take!(n)`: consume exactly `n` bytes, `Incomplete` (`none`) if
fewer remain. -/
def takeBytes (n : Nat) (l : List Nat) : Option (List Nat × List Nat) :=
  if n ≤ l.length then some (l.take n, l.drop n) else none

/-- `secretbox::Nonce::from_bytes` / `Nonce::from_bytes`: consume 24 bytes. -/
def Nonce.from_bytes (l : List Nat) : Option (Nonce × List Nat) :=
  if h : NONCEBYTES ≤ l.length then
    some (⟨l.take NONCEBYTES, by simp [List.length_take]; omega⟩, l.drop NONCEBYTES)
  else none

/-- `PublicKey::from_bytes`: consume 32 bytes. -/
def PublicKey.from_bytes (l : List Nat) : Option (PublicKey × List Nat) :=
  if h : PUBLICKEYBYTES ≤ l.length then
    some (⟨l.take PUBLICKEYBYTES, by simp [List.length_take]; omega⟩, l.drop PUBLICKEYBYTES)
  else none

/-- nom `be_u64`: consume 8 bytes and decode them as a big-endian u64. -/
def be_u64_decode (l : List Nat) : Nat :=
  l.foldl (fun acc b => acc * 256 + b) 0

/-- `gen_be_u64!`: write a u64 as 8 big-endian bytes. -/
def be_u64_encode (n : Nat) : List Nat :=
  [n / 2 ^ 56 % 256, n / 2 ^ 48 % 256, n / 2 ^ 40 % 256, n / 2 ^ 32 % 256,
   n / 2 ^ 24 % 256, n / 2 ^ 16 % 256, n / 2 ^ 8 % 256, n % 256]

/-- Number of seconds that a generated cookie is valid
(`COOKIE_TIMEOUT` in cookie.rs). -/
def COOKIE_TIMEOUT : Nat := 15

/-- The `Cookie` struct of cookie.rs: creation time plus the two public
keys of a node. `time` is a `u64`; Rust's type guarantees `time < 2^64`. -/
structure Cookie where
  time : Nat
  real_pk : PublicKey
  dht_pk : PublicKey
deriving DecidableEq

/-- `Cookie::is_timed_out`: `self.time + COOKIE_TIMEOUT < unix_time(now)`.
The ambient clock read is passed explicitly as `now`; the `u64` addition
wraps modulo `2^64` (release-mode Rust semantics, the overflow is not
guarded in the source). -/
def Cookie.is_timed_out (c : Cookie) (now : Nat) : Bool :=
  (c.time + COOKIE_TIMEOUT) % 2 ^ 64 < now

/-- `Cookie::from_bytes`: 8-byte big-endian timestamp, 32-byte long-term
key, 32-byte DHT key, then `eof!()` - the input must be consumed exactly. -/
def Cookie.from_bytes (l : List Nat) : Option (Cookie × List Nat) :=
  match takeBytes 8 l with
  | none => none
  | some (tb, r1) =>
    match PublicKey.from_bytes r1 with
    | none => none
    | some (real_pk, r2) =>
      match PublicKey.from_bytes r2 with
      | none => none
      | some (dht_pk, r3) =>
        match r3 with
        | [] => some (⟨be_u64_decode tb, real_pk, dht_pk⟩, [])
        | _ => none

/-- `Cookie::to_bytes`: timestamp, long-term key, DHT key - 72 bytes. -/
def Cookie.to_bytes (c : Cookie) : List Nat :=
  be_u64_encode c.time ++ c.real_pk.val ++ c.dht_pk.val

/-- The `EncryptedCookie` struct of cookie.rs: nonce plus encrypted
payload bytes. -/
structure EncryptedCookie where
  nonce : Nonce
  payload : List Nat
deriving DecidableEq

/-- `EncryptedCookie::from_bytes`: 24-byte nonce then exactly 88 payload
bytes. -/
def EncryptedCookie.from_bytes (l : List Nat) : Option (EncryptedCookie × List Nat) :=
  match Nonce.from_bytes l with
  | none => none
  | some (nonce, r1) =>
    match takeBytes 88 r1 with
    | none => none
    | some (payload, r2) => some (⟨nonce, payload⟩, r2)

/-- `EncryptedCookie::to_bytes`: nonce then payload. -/
def EncryptedCookie.to_bytes (e : EncryptedCookie) : List Nat :=
  e.nonce.val ++ e.payload

/-- `EncryptedCookie::new`: serialize the cookie into a 72-byte buffer
(always exactly filled), seal with the symmetric key under a fresh
nonce. The ambient random nonce is passed explicitly. -/
def EncryptedCookie.new (symmetric_key : Key) (nonce : Nonce) (payload : Cookie) :
    EncryptedCookie :=
  ⟨nonce, secretbox_seal payload.to_bytes symmetric_key⟩

/-- `EncryptedCookie::get_payload`: open the ciphertext, then parse the
plaintext as a `Cookie`; decrypt failure and parse failure each map to an
`ErrorKind::Other` error. -/
def EncryptedCookie.get_payload (e : EncryptedCookie) (symmetric_key : Key) :
    Except IoError Cookie :=
  match secretbox_open e.payload symmetric_key with
  | none => Except.error cookieDecryptError
  | some decrypted =>
    match Cookie.from_bytes decrypted with
    | none => Except.error cookieDeserializeError
    | some (c, _) => Except.ok c

/-- `EncryptedCookie::hash`: serialize into a fixed 112-byte buffer
(`unwrap`, so a payload that does not fit panics - modelled as `none`),
then SHA-512 the written bytes. -/
def EncryptedCookie.hash (e : EncryptedCookie) : Option Digest :=
  if e.to_bytes.length ≤ 112 then some (sha512_hash e.to_bytes) else none

/-- Maximum size of an onion packet in bytes (`ONION_MAX_PACKET_SIZE`,
defined outside the excerpt; the protocol value is 1400). Modelled from
the spec: "a maximum onion packet size constant". -/
def ONION_MAX_PACKET_SIZE : Nat := 1400

/-- Size of the first-level onion return trailer in bytes
(`ONION_RETURN_1_SIZE`, defined outside the excerpt): a 24-byte nonce
plus a 35-byte encrypted blob. Modelled from the spec: "the fixed
onion-return trailer size" (59). -/
def ONION_RETURN_1_SIZE : Nat := 59

/-- Modelled from the spec: `IpPort`, the next-hop address - a fixed
19-byte field on the wire, opaque to this layer. -/
def IpPort : Type := { l : List Nat // l.length = 19 }

instance : DecidableEq IpPort := fun a b =>
  decidable_of_iff (a.val = b.val) Subtype.ext_iff.symm

/-- Modelled from the spec: `IpPort::from_bytes` consumes the fixed
19-byte address field. -/
def IpPort.from_bytes (l : List Nat) : Option (IpPort × List Nat) :=
  if h : 19 ≤ l.length then
    some (⟨l.take 19, by simp [List.length_take]; omega⟩, l.drop 19)
  else none

/-- Modelled from the spec: `OnionReturn`, the opaque encrypted return
trailer - its own nonce plus an encrypted blob. -/
structure OnionReturn where
  nonce : Nonce
  payload : List Nat
deriving DecidableEq

/-- Modelled from the spec: `OnionReturn::from_bytes` - a 24-byte nonce
followed by the rest of the input as the opaque encrypted blob. -/
def OnionReturn.from_bytes (l : List Nat) : Option (OnionReturn × List Nat) :=
  match Nonce.from_bytes l with
  | none => none
  | some (nonce, r1) => some (⟨nonce, r1⟩, [])

/-- Modelled from the spec: `OnionReturn::to_bytes` - nonce then blob. -/
def OnionReturn.to_bytes (r : OnionReturn) : List Nat :=
  r.nonce.val ++ r.payload

/-- The `OnionRequest1` struct of onion_request_1.rs. -/
structure OnionRequest1 where
  nonce : Nonce
  temporary_pk : PublicKey
  payload : List Nat
  onion_return : OnionReturn
deriving DecidableEq

/-- `OnionRequest1::from_bytes`: check total length `≤
ONION_MAX_PACKET_SIZE`, match the `0x81` tag byte, consume the 24-byte
nonce and 32-byte temporary key, require at least `ONION_RETURN_1_SIZE`
remaining bytes, take everything but the last 59 bytes as the ciphertext
payload, and parse the trailing 59 bytes as the `OnionReturn`. -/
def OnionRequest1.from_bytes (l : List Nat) : Option (OnionRequest1 × List Nat) :=
  if l.length ≤ ONION_MAX_PACKET_SIZE then
    match l with
    | [] => none
    | b :: r0 =>
      if b = 0x81 then
      match Nonce.from_bytes r0 with
      | none => none
      | some (nonce, r1) =>
        match PublicKey.from_bytes r1 with
        | none => none
        | some (temporary_pk, r2) =>
          if ONION_RETURN_1_SIZE ≤ r2.length then
            match OnionReturn.from_bytes (r2.drop (r2.length - ONION_RETURN_1_SIZE)) with
            | none => none
            | some (onion_return, r3) =>
              some (⟨nonce, temporary_pk,
                     r2.take (r2.length - ONION_RETURN_1_SIZE), onion_return⟩, r3)
          else none
      else none
  else none

/-- `OnionRequest1::to_bytes`: tag `0x81`, nonce, temporary key, payload,
onion return. -/
def OnionRequest1.to_bytes (p : OnionRequest1) : List Nat :=
  0x81 :: (p.nonce.val ++ p.temporary_pk.val ++ p.payload ++ p.onion_return.to_bytes)

/-- The `OnionRequest1Payload` struct of onion_request_1.rs. -/
structure OnionRequest1Payload where
  ip_port : IpPort
  temporary_pk : PublicKey
  inner : List Nat
deriving DecidableEq

/-- `OnionRequest1Payload::from_bytes`: 19-byte `IpPort`, 32-byte
temporary key, then `rest` - all remaining bytes - as the opaque inner
payload. -/
def OnionRequest1Payload.from_bytes (l : List Nat) :
    Option (OnionRequest1Payload × List Nat) :=
  match IpPort.from_bytes l with
  | none => none
  | some (ip_port, r1) =>
    match PublicKey.from_bytes r1 with
    | none => none
    | some (temporary_pk, r2) => some (⟨ip_port, temporary_pk, r2⟩, [])

/-- `OnionRequest1Payload::to_bytes`: `IpPort`, temporary key, inner. -/
def OnionRequest1Payload.to_bytes (p : OnionRequest1Payload) : List Nat :=
  p.ip_port.val ++ p.temporary_pk.val ++ p.inner

/-- `OnionRequest1::new`: serialize the payload into an
`ONION_MAX_PACKET_SIZE` scratch buffer (`unwrap` panics if it does not
fit - modelled as `none`), seal under the precomputed shared secret with
a fresh nonce (passed explicitly). -/
def OnionRequest1.new (shared_secret : PrecomputedKey) (nonce : Nonce)
    (temporary_pk : PublicKey) (payload : OnionRequest1Payload)
    (onion_return : OnionReturn) : Option OnionRequest1 :=
  if payload.to_bytes.length ≤ ONION_MAX_PACKET_SIZE then
    some ⟨nonce, temporary_pk, secretbox_seal payload.to_bytes shared_secret,
          onion_return⟩
  else none

/-- `OnionRequest1::get_payload`: open the ciphertext with the
precomputed shared secret, then parse the plaintext as an
`OnionRequest1Payload`; each failure maps to an `ErrorKind::Other` error. -/
def OnionRequest1.get_payload (p : OnionRequest1) (shared_secret : PrecomputedKey) :
    Except IoError OnionRequest1Payload :=
  match secretbox_open p.payload shared_secret with
  | none => Except.error onionDecryptError
  | some decrypted =>
    match OnionRequest1Payload.from_bytes decrypted with
    | none => Except.error onionDeserializeError
    | some (inner, _) => Except.ok inner

/-! ### Helper lemmas -/

/-- The authentication tag has the fixed MAC length. -/
theorem authTag_length (k : Key) : (authTag k).length = MACBYTES := by
  simp [authTag, MACBYTES]

/-- Equal tags come from equal keys (ideal-MAC injectivity). -/
theorem authTag_inj {k1 k2 : Key} (h : authTag k1 = authTag k2) : k1 = k2 := by
  simpa [authTag] using h

/-- Sealing adds exactly the MAC length to the plaintext. -/
theorem secretbox_seal_length (m : List Nat) (k : Key) :
    (secretbox_seal m k).length = m.length + MACBYTES := by
  simp [secretbox_seal, authTag_length]

/-- Opening with the sealing key recovers the plaintext. -/
theorem secretbox_open_seal (m : List Nat) (k : Key) :
    secretbox_open (secretbox_seal m k) k = some m := by
  unfold secretbox_open
  rw [secretbox_seal_length, if_pos (by omega),
      show m.length + MACBYTES - MACBYTES = m.length from by omega]
  unfold secretbox_seal
  rw [List.drop_left' rfl, if_pos rfl, List.take_left' rfl]

/-- Opening with a different key fails. -/
theorem secretbox_open_seal_ne (m : List Nat) {k1 k2 : Key} (h : k1 ≠ k2) :
    secretbox_open (secretbox_seal m k1) k2 = none := by
  unfold secretbox_open
  rw [secretbox_seal_length, if_pos (by omega),
      show m.length + MACBYTES - MACBYTES = m.length from by omega]
  unfold secretbox_seal
  rw [List.drop_left' rfl, if_neg (fun he => h (authTag_inj he))]

/-- `take!` on an input starting with a block of the demanded length
consumes exactly that block. -/
theorem takeBytes_append (a r : List Nat) (n : Nat) (h : a.length = n) :
    takeBytes n (a ++ r) = some (a, r) := by
  unfold takeBytes
  rw [if_pos (by rw [List.length_append]; omega), List.take_left' h, List.drop_left' h]

/-- Parsing a public key off the front of a byte stream. -/
theorem publicKey_parse_append (pk : PublicKey) (r : List Nat) :
    PublicKey.from_bytes (pk.val ++ r) = some (pk, r) := by
  have hl : pk.val.length = PUBLICKEYBYTES := pk.property
  unfold PublicKey.from_bytes
  rw [dif_pos (by rw [List.length_append]; omega)]
  simp only [Option.some.injEq, Prod.mk.injEq]
  exact ⟨Subtype.ext (List.take_left' hl), List.drop_left' hl⟩

/-- Parsing a public key from exactly its own bytes. -/
theorem PublicKey.from_bytes_exact (pk : PublicKey) :
    PublicKey.from_bytes pk.val = some (pk, []) := by
  have h := publicKey_parse_append pk []
  rwa [List.append_nil] at h

/-- Parsing a nonce off the front of a byte stream. -/
theorem nonce_parse_append (n : Nonce) (r : List Nat) :
    Nonce.from_bytes (n.val ++ r) = some (n, r) := by
  have hl : n.val.length = NONCEBYTES := n.property
  unfold Nonce.from_bytes
  rw [dif_pos (by rw [List.length_append]; omega)]
  simp only [Option.some.injEq, Prod.mk.injEq]
  exact ⟨Subtype.ext (List.take_left' hl), List.drop_left' hl⟩

/-- Parsing an `IpPort` off the front of a byte stream. -/
theorem ipPort_parse_append (p : IpPort) (r : List Nat) :
    IpPort.from_bytes (p.val ++ r) = some (p, r) := by
  have hl : p.val.length = 19 := p.property
  unfold IpPort.from_bytes
  rw [dif_pos (by rw [List.length_append]; omega)]
  simp only [Option.some.injEq, Prod.mk.injEq]
  exact ⟨Subtype.ext (List.take_left' hl), List.drop_left' hl⟩

/-- Decoding the big-endian encoding of a `u64` value recovers it. -/
theorem be_u64_decode_encode (n : Nat) (h : n < 2 ^ 64) :
    be_u64_decode (be_u64_encode n) = n := by
  simp only [be_u64_decode, be_u64_encode, List.foldl]
  omega

/-- A serialized cookie is 72 bytes. -/
theorem Cookie.to_bytes_length (c : Cookie) : c.to_bytes.length = 72 := by
  have h1 : c.real_pk.val.length = PUBLICKEYBYTES := c.real_pk.property
  have h2 : c.dht_pk.val.length = PUBLICKEYBYTES := c.dht_pk.property
  simp [Cookie.to_bytes, be_u64_encode, h1, h2, PUBLICKEYBYTES]

/-- Cookie serialization round-trip, helper form. -/
theorem cookie_roundtrip (c : Cookie) (h : c.time < 2 ^ 64) :
    Cookie.from_bytes c.to_bytes = some (c, []) := by
  have hb : (be_u64_encode c.time).length = 8 := rfl
  simp only [Cookie.to_bytes, List.append_assoc]
  simp only [Cookie.from_bytes, takeBytes_append _ _ 8 hb, publicKey_parse_append,
    PublicKey.from_bytes_exact, be_u64_decode_encode c.time h]

/-- `take!` fails (`Incomplete`) on a too-short input. -/
theorem takeBytes_none {n : Nat} {l : List Nat} (h : l.length < n) :
    takeBytes n l = none := by
  unfold takeBytes
  rw [if_neg (by omega)]

/-- Public-key parsing fails on a too-short input. -/
theorem PublicKey.from_bytes_none {l : List Nat} (h : l.length < PUBLICKEYBYTES) :
    PublicKey.from_bytes l = none := by
  unfold PublicKey.from_bytes
  rw [dif_neg (by omega)]

/-- Public-key parsing on a long-enough input consumes exactly 32 bytes. -/
theorem publicKey_parse_of_le (l : List Nat) (h : PUBLICKEYBYTES ≤ l.length) :
    ∃ pk, PublicKey.from_bytes l = some (pk, l.drop PUBLICKEYBYTES) := by
  unfold PublicKey.from_bytes
  rw [dif_pos h]
  exact ⟨_, rfl⟩

/-- A byte list whose length is not exactly 72 never parses as a `Cookie`
(too short: a fixed field runs out of input; too long: `eof!()` fails). -/
theorem Cookie.from_bytes_length_ne (m : List Nat) (h : m.length ≠ 72) :
    Cookie.from_bytes m = none := by
  rcases Nat.lt_or_ge m.length 8 with h8 | h8
  · simp only [Cookie.from_bytes, takeBytes_none h8]
  · have e1 : takeBytes 8 m = some (m.take 8, m.drop 8) := by
      unfold takeBytes
      rw [if_pos h8]
    rcases Nat.lt_or_ge m.length 40 with h40 | h40
    · have hd : (m.drop 8).length < PUBLICKEYBYTES := by
        simp only [List.length_drop, PUBLICKEYBYTES]
        omega
      simp only [Cookie.from_bytes, e1, PublicKey.from_bytes_none hd]
    · obtain ⟨pk1, e2⟩ := publicKey_parse_of_le (m.drop 8)
        (by simp only [List.length_drop, PUBLICKEYBYTES]; omega)
      rcases Nat.lt_or_ge m.length 72 with h72 | h72
      · have hd : ((m.drop 8).drop PUBLICKEYBYTES).length < PUBLICKEYBYTES := by
          simp only [List.length_drop, PUBLICKEYBYTES]
          omega
        simp only [Cookie.from_bytes, e1, e2, PublicKey.from_bytes_none hd]
      · obtain ⟨pk2, e3⟩ := publicKey_parse_of_le ((m.drop 8).drop PUBLICKEYBYTES)
          (by simp only [List.length_drop, PUBLICKEYBYTES]; omega)
        have hlen : (((m.drop 8).drop PUBLICKEYBYTES).drop PUBLICKEYBYTES).length =
            m.length - 72 := by
          simp only [List.length_drop, PUBLICKEYBYTES]
          omega
        cases hr : ((m.drop 8).drop PUBLICKEYBYTES).drop PUBLICKEYBYTES with
        | nil =>
          rw [hr] at hlen
          simp only [List.length_nil] at hlen
          omega
        | cons a t =>
          simp only [Cookie.from_bytes, e1, e2, e3, hr]

/-! ### Concrete sample values for witnesses -/

/-- An all-zero public key. -/
def pkZero : PublicKey := ⟨List.replicate PUBLICKEYBYTES 0, rfl⟩

/-- An all-one public key. -/
def pkOne : PublicKey := ⟨List.replicate PUBLICKEYBYTES 1, rfl⟩

/-- An all-zero nonce. -/
def nonceZero : Nonce := ⟨List.replicate NONCEBYTES 0, rfl⟩

/-- An all-two nonce, distinct from `nonceZero`. -/
def nonceTwo : Nonce := ⟨List.replicate NONCEBYTES 2, rfl⟩

/-- A sample cookie (the timestamp used by the repository's own
`cookie_encode_decode` test). -/
def cookie0 : Cookie := ⟨12345, pkZero, pkOne⟩

/-- An all-zero 19-byte `IpPort`. -/
def ipZero : IpPort := ⟨List.replicate 19 0, rfl⟩

/-- A sample onion return trailer of the first-level wire size
(24-byte nonce + 35-byte blob = 59 bytes). -/
def oret0 : OnionReturn := ⟨nonceZero, List.replicate 35 7⟩

/-- A sample onion payload (inner bytes as in the repository's tests). -/
def payload0 : OnionRequest1Payload := ⟨ipZero, pkZero, [42, 123]⟩

/-- The packet `OnionRequest1::new` builds from `payload0` under shared
secret `0` and nonce `nonceZero`. -/
def onionPacket0 : OnionRequest1 :=
  ⟨nonceZero, pkZero, secretbox_seal payload0.to_bytes 0, oret0⟩

/-! ### Claim theorems -/

/-- C1: for every symmetric key `k`, nonce and cookie `c` (with `time` in
`u64` range, as Rust's type guarantees), decrypting the result of
`EncryptedCookie::new(k, c)` with the same key `k` recovers the cookie:
`get_payload` returns `Ok(c)`. -/
theorem cookie_encrypt_then_decrypt (k : Key) (n : Nonce) (c : Cookie)
    (h : c.time < 2 ^ 64) :
    (EncryptedCookie.new k n c).get_payload k = Except.ok c := by
  simp only [EncryptedCookie.new, EncryptedCookie.get_payload, secretbox_open_seal,
    cookie_roundtrip c h]

/-- Witness for C1 at a concrete key, nonce and cookie. -/
theorem cookie_encrypt_then_decrypt_witness :
    (EncryptedCookie.new 5 nonceZero cookie0).get_payload 5 = Except.ok cookie0 :=
  cookie_encrypt_then_decrypt 5 nonceZero cookie0 (by decide)

/-- C5: serializing any `Cookie` (8-byte big-endian timestamp, 32-byte
long-term key, 32-byte DHT key - 72 bytes in total) and parsing the
result yields the same cookie, with the input fully consumed. -/
theorem cookie_serialization_roundtrip (c : Cookie) (h : c.time < 2 ^ 64) :
    c.to_bytes.length = 72 ∧ Cookie.from_bytes c.to_bytes = some (c, []) :=
  ⟨Cookie.to_bytes_length c, cookie_roundtrip c h⟩

/-- Witness for C5 at a concrete cookie. -/
theorem cookie_serialization_roundtrip_witness :
    cookie0.to_bytes.length = 72 ∧
      Cookie.from_bytes cookie0.to_bytes = some (cookie0, []) :=
  cookie_serialization_roundtrip cookie0 (by decide)

/-- C7: `EncryptedCookie::get_payload` rejects any decrypted plaintext
that is not exactly a 72-byte cookie: sealing a blob of any other length
(shorter or longer) under the right key still yields the deserialize
error, never a cookie. -/
theorem cookie_payload_wrong_length_rejected (k : Key) (n : Nonce) (m : List Nat)
    (h : m.length ≠ 72) :
    (EncryptedCookie.mk n (secretbox_seal m k)).get_payload k =
      Except.error cookieDeserializeError := by
  simp only [EncryptedCookie.get_payload, secretbox_open_seal,
    Cookie.from_bytes_length_ne m h]

/-- Witness for C7: a 123-byte blob (oversized, as in the repository's
`cookie_encrypt_decrypt_invalid` test) and an empty blob are both
rejected. -/
theorem cookie_payload_wrong_length_rejected_witness :
    (EncryptedCookie.mk nonceZero (secretbox_seal (List.replicate 123 42) 5)).get_payload 5 =
        Except.error cookieDeserializeError ∧
      (EncryptedCookie.mk nonceZero (secretbox_seal [] 5)).get_payload 5 =
        Except.error cookieDeserializeError :=
  ⟨cookie_payload_wrong_length_rejected 5 nonceZero (List.replicate 123 42) (by decide),
   cookie_payload_wrong_length_rejected 5 nonceZero [] (by decide)⟩

/-- C3 (amended): provided `time + COOKIE_TIMEOUT` does not overflow the
u64 (`time + 15 < 2^64`), `is_timed_out` is true iff `time + 15 < now`;
hence a cookie with `time = now` is not timed out, a cookie with
`time = now - (COOKIE_TIMEOUT + 1)` is timed out, and a future-dated
cookie is not timed out. Without the overflow bound the wrapping u64
addition can mark a far-future cookie as timed out. -/
theorem cookie_timeout_boundaries (c : Cookie) (now : Nat)
    (h : c.time + COOKIE_TIMEOUT < 2 ^ 64) :
    (c.is_timed_out now = true ↔ c.time + COOKIE_TIMEOUT < now) ∧
      (c.time = now → c.is_timed_out now = false) ∧
      (now = c.time + (COOKIE_TIMEOUT + 1) → c.is_timed_out now = true) ∧
      (now < c.time → c.is_timed_out now = false) := by
  have hm : (c.time + COOKIE_TIMEOUT) % 2 ^ 64 = c.time + COOKIE_TIMEOUT :=
    Nat.mod_eq_of_lt h
  refine ⟨?_, ?_, ?_, ?_⟩
  · simp only [Cookie.is_timed_out, hm, decide_eq_true_eq]
  · intro he
    simp only [Cookie.is_timed_out, hm, decide_eq_false_iff_not]
    omega
  · intro he
    simp only [Cookie.is_timed_out, hm, decide_eq_true_eq]
    omega
  · intro hf
    simp only [Cookie.is_timed_out, hm, decide_eq_false_iff_not]
    omega

/-- Witness for C3 (amended) at concrete values: `time = 100`, `now = 100`
is not timed out; `now = 116` is timed out. -/
theorem cookie_timeout_boundaries_witness :
    ((Cookie.mk 100 pkZero pkOne).is_timed_out 100 = true ↔
        100 + COOKIE_TIMEOUT < 100) ∧
      (100 = 100 → (Cookie.mk 100 pkZero pkOne).is_timed_out 100 = false) ∧
      (116 = 100 + (COOKIE_TIMEOUT + 1) →
        (Cookie.mk 100 pkZero pkOne).is_timed_out 116 = true) ∧
      (116 < 100 → (Cookie.mk 100 pkZero pkOne).is_timed_out 116 = false) := by
  refine ⟨(cookie_timeout_boundaries (Cookie.mk 100 pkZero pkOne) 100 (by decide)).1,
    (cookie_timeout_boundaries (Cookie.mk 100 pkZero pkOne) 100 (by decide)).2.1,
    (cookie_timeout_boundaries (Cookie.mk 100 pkZero pkOne) 116 (by decide)).2.2.1,
    (cookie_timeout_boundaries (Cookie.mk 100 pkZero pkOne) 116 (by decide)).2.2.2⟩

/-- C3 counterexample: a cookie dated `2^64 - 1` - far in the future of
`now = 15` - is reported timed out, because the u64 addition
`time + COOKIE_TIMEOUT` wraps to 14; the claimed equivalence
"timed out iff `time + 15 < now`" and the claimed "future cookies are
never timed out" both fail at this input. -/
theorem cookie_timeout_overflow_cex :
    (Cookie.mk (2 ^ 64 - 1) pkZero pkOne).is_timed_out 15 = true ∧
      15 < 2 ^ 64 - 1 ∧ ¬ (2 ^ 64 - 1 + COOKIE_TIMEOUT < 15) := by
  decide

/-- C4: decryption with a mismatched key fails - both for a cookie
encrypted under `k1` and opened under `k2 ≠ k1`, and for an
`OnionRequest1` built under shared secret `s1` and opened under
`s2 ≠ s1`. -/
theorem mismatched_key_decrypt_fails (c : Cookie) (n : Nonce) (k1 k2 : Key)
    (hk : k1 ≠ k2) (s1 s2 : PrecomputedKey) (hs : s1 ≠ s2) (tpk : PublicKey)
    (p : OnionRequest1Payload) (r : OnionReturn) (pkt : OnionRequest1)
    (hp : OnionRequest1.new s1 n tpk p r = some pkt) :
    (EncryptedCookie.new k1 n c).get_payload k2 = Except.error cookieDecryptError ∧
      pkt.get_payload s2 = Except.error onionDecryptError := by
  constructor
  · simp only [EncryptedCookie.new, EncryptedCookie.get_payload,
      secretbox_open_seal_ne _ hk]
  · unfold OnionRequest1.new at hp
    split at hp
    · cases hp
      simp only [OnionRequest1.get_payload, secretbox_open_seal_ne _ hs]
    · simp at hp

/-- Witness for C4 at concrete keys `0 ≠ 1` and concrete packets. -/
theorem mismatched_key_decrypt_fails_witness :
    (EncryptedCookie.new 0 nonceZero cookie0).get_payload 1 =
        Except.error cookieDecryptError ∧
      onionPacket0.get_payload 1 = Except.error onionDecryptError :=
  mismatched_key_decrypt_fails cookie0 nonceZero 0 1 (by decide) 0 1 (by decide)
    pkZero payload0 oret0 onionPacket0 (by decide)

/-- Inversion of `take!`: what a successful `takeBytes` tells us. -/
theorem takeBytes_some {n : Nat} {l a r : List Nat}
    (h : takeBytes n l = some (a, r)) :
    n ≤ l.length ∧ a = l.take n ∧ r = l.drop n := by
  by_cases hl : n ≤ l.length
  · unfold takeBytes at h
    rw [if_pos hl] at h
    simp only [Option.some.injEq, Prod.mk.injEq] at h
    exact ⟨hl, h.1.symm, h.2.symm⟩
  · unfold takeBytes at h
    rw [if_neg hl] at h
    exact absurd h (by simp)

/-- Inversion of a successful nonce parse. -/
theorem nonce_parse_inv {l : List Nat} {n : Nonce} {r : List Nat}
    (h : Nonce.from_bytes l = some (n, r)) :
    NONCEBYTES ≤ l.length ∧ n.val = l.take NONCEBYTES ∧ r = l.drop NONCEBYTES := by
  by_cases hl : NONCEBYTES ≤ l.length
  · unfold Nonce.from_bytes at h
    rw [dif_pos hl] at h
    simp only [Option.some.injEq, Prod.mk.injEq] at h
    refine ⟨hl, ?_, h.2.symm⟩
    rw [← h.1]
  · unfold Nonce.from_bytes at h
    rw [dif_neg hl] at h
    exact absurd h (by simp)

/-- Inversion of a successful public-key parse. -/
theorem publicKey_parse_inv {l : List Nat} {p : PublicKey} {r : List Nat}
    (h : PublicKey.from_bytes l = some (p, r)) :
    PUBLICKEYBYTES ≤ l.length ∧ p.val = l.take PUBLICKEYBYTES ∧
      r = l.drop PUBLICKEYBYTES := by
  by_cases hl : PUBLICKEYBYTES ≤ l.length
  · unfold PublicKey.from_bytes at h
    rw [dif_pos hl] at h
    simp only [Option.some.injEq, Prod.mk.injEq] at h
    refine ⟨hl, ?_, h.2.symm⟩
    rw [← h.1]
  · unfold PublicKey.from_bytes at h
    rw [dif_neg hl] at h
    exact absurd h (by simp)

/-- Nonce parsing on a long-enough input always succeeds. -/
theorem nonce_parse_of_le (l : List Nat) (h : NONCEBYTES ≤ l.length) :
    ∃ n, Nonce.from_bytes l = some (n, l.drop NONCEBYTES) := by
  unfold Nonce.from_bytes
  rw [dif_pos h]
  exact ⟨_, rfl⟩

/-- A successful onion-return parse consumes the whole input and requires
at least the nonce. -/
theorem onionReturn_parse_inv {l : List Nat} {o : OnionReturn} {r : List Nat}
    (h : OnionReturn.from_bytes l = some (o, r)) :
    NONCEBYTES ≤ l.length ∧ r = [] := by
  rcases hn : Nonce.from_bytes l with _ | ⟨n1, r1⟩
  · simp [OnionReturn.from_bytes, hn] at h
  · simp only [OnionReturn.from_bytes, hn, Option.some.injEq, Prod.mk.injEq] at h
    exact ⟨(nonce_parse_inv hn).1, h.2.symm⟩

/-- Parsing the serialization of an onion return consumes it exactly. -/
theorem OnionReturn.from_bytes_to_bytes (o : OnionReturn) :
    OnionReturn.from_bytes o.to_bytes = some (o, []) := by
  simp only [OnionReturn.from_bytes, OnionReturn.to_bytes, nonce_parse_append]

/-- Inversion of a successful `OnionRequest1` parse: the guards that must
have held and the exact shape of the payload field. -/
theorem onionRequest1_parse_inv {l : List Nat} {p : OnionRequest1}
    {r : List Nat} (h : OnionRequest1.from_bytes l = some (p, r)) :
    l.length ≤ ONION_MAX_PACKET_SIZE ∧ l.head? = some 0x81 ∧
      57 + ONION_RETURN_1_SIZE ≤ l.length ∧
      p.payload = (l.drop 57).take (l.length - (57 + ONION_RETURN_1_SIZE)) ∧
      r = [] := by
  by_cases hmax : l.length ≤ ONION_MAX_PACKET_SIZE
  case neg =>
    unfold OnionRequest1.from_bytes at h
    rw [if_neg hmax] at h
    exact absurd h (by simp)
  case pos =>
  cases l with
  | nil => simp [OnionRequest1.from_bytes] at h
  | cons b r0 =>
    simp only [OnionRequest1.from_bytes] at h
    rw [if_pos hmax] at h
    by_cases hb : b = 0x81
    case neg =>
      rw [if_neg hb] at h
      exact absurd h (by simp)
    case pos =>
    subst hb
    rw [if_pos rfl] at h
    rcases hn : Nonce.from_bytes r0 with _ | ⟨n1, r1⟩
    · simp [hn] at h
    · simp only [hn] at h
      rcases hpk : PublicKey.from_bytes r1 with _ | ⟨tpk, r2⟩
      · simp [hpk] at h
      · simp only [hpk] at h
        by_cases h59 : ONION_RETURN_1_SIZE ≤ r2.length
        case neg =>
          rw [if_neg h59] at h
          exact absurd h (by simp)
        case pos =>
        rw [if_pos h59] at h
        rcases hor : OnionReturn.from_bytes (r2.drop (r2.length - ONION_RETURN_1_SIZE))
            with _ | ⟨oret, r3⟩
        · simp [hor] at h
        · simp only [hor, Option.some.injEq, Prod.mk.injEq] at h
          obtain ⟨hr1len, _, hr1⟩ := nonce_parse_inv hn
          obtain ⟨hr2len, _, hr2⟩ := publicKey_parse_inv hpk
          subst hr1
          subst hr2
          have hr3 : r3 = [] := (onionReturn_parse_inv hor).2
          have hlen2 : ((r0.drop NONCEBYTES).drop PUBLICKEYBYTES).length =
              r0.length - 56 := by
            simp only [List.length_drop, NONCEBYTES, PUBLICKEYBYTES]
            omega
          have hlen56 : 115 ≤ r0.length := by
            simp only [List.length_drop, NONCEBYTES, PUBLICKEYBYTES] at hr2len h59
            simp only [ONION_RETURN_1_SIZE] at h59
            omega
          refine ⟨hmax, rfl, ?_, ?_, h.2.symm.trans hr3⟩
          · simp only [List.length_cons, ONION_RETURN_1_SIZE]
            omega
          · rw [← h.1]
            have hdd : (r0.drop NONCEBYTES).drop PUBLICKEYBYTES = r0.drop 56 := by
              rw [List.drop_drop]
              norm_num [NONCEBYTES, PUBLICKEYBYTES]
            have e0 : ((0x81 : Nat) :: r0).drop 57 = r0.drop 56 := rfl
            have e1 : ((0x81 : Nat) :: r0).length - (57 + ONION_RETURN_1_SIZE) =
                r0.length - 56 - ONION_RETURN_1_SIZE := by
              simp only [List.length_cons, ONION_RETURN_1_SIZE]
              omega
            rw [e0, hlen2, hdd, e1]

/-- Any input longer than the maximum onion packet size is rejected
before any other work. -/
theorem OnionRequest1.from_bytes_oversized {l : List Nat}
    (h : ONION_MAX_PACKET_SIZE < l.length) : OnionRequest1.from_bytes l = none := by
  unfold OnionRequest1.from_bytes
  rw [if_neg (by omega)]

/-- Any input whose length is below header size + trailer size is
rejected. -/
theorem OnionRequest1.from_bytes_short {l : List Nat}
    (h : l.length < 57 + ONION_RETURN_1_SIZE) : OnionRequest1.from_bytes l = none := by
  cases hl : OnionRequest1.from_bytes l with
  | none => rfl
  | some pr =>
    obtain ⟨p, r⟩ := pr
    exact absurd (onionRequest1_parse_inv hl).2.2.1 (by omega)

/-- Any input within the maximum packet size that starts with the `0x81`
tag and has at least 24 + 32 + 59 bytes after the tag parses
successfully. -/
theorem OnionRequest1.from_bytes_success (b : Nat) (r0 : List Nat) (hb : b = 0x81)
    (hmax : (b :: r0).length ≤ ONION_MAX_PACKET_SIZE) (hlen : 115 ≤ r0.length) :
    (OnionRequest1.from_bytes (b :: r0)).isSome = true := by
  subst hb
  obtain ⟨n1, e1⟩ := nonce_parse_of_le r0 (by simp only [NONCEBYTES]; omega)
  obtain ⟨p1, e2⟩ := publicKey_parse_of_le (r0.drop NONCEBYTES)
    (by simp only [List.length_drop, NONCEBYTES, PUBLICKEYBYTES]; omega)
  have h59 : ONION_RETURN_1_SIZE ≤ ((r0.drop NONCEBYTES).drop PUBLICKEYBYTES).length := by
    simp only [List.length_drop, NONCEBYTES, PUBLICKEYBYTES, ONION_RETURN_1_SIZE]
    omega
  obtain ⟨n2, e3⟩ := nonce_parse_of_le
    (((r0.drop NONCEBYTES).drop PUBLICKEYBYTES).drop
      (((r0.drop NONCEBYTES).drop PUBLICKEYBYTES).length - ONION_RETURN_1_SIZE))
    (by simp only [List.length_drop, NONCEBYTES, PUBLICKEYBYTES, ONION_RETURN_1_SIZE]
        omega)
  simp only [OnionRequest1.from_bytes, OnionReturn.from_bytes, e1, e2, e3]
  rw [if_pos hmax]
  simp only [if_true]
  rw [if_pos h59]
  rfl

/-- C2: the `OnionRequest1` parsing policy. A successful parse implies the
input was within `ONION_MAX_PACKET_SIZE`, started with the `0x81` tag, and
had at least `ONION_RETURN_1_SIZE` (59) bytes after the 57-byte fixed
header; the parsed payload is exactly the post-header bytes minus the
trailing 59-byte onion return. An input of exactly the maximum packet size
with the right tag parses; an input one byte over fails; an input whose
post-header remainder is shorter than the trailer fails. -/
theorem onion_request_1_parse_policy :
    (∀ (l : List Nat) (p : OnionRequest1) (r : List Nat),
        OnionRequest1.from_bytes l = some (p, r) →
        l.length ≤ ONION_MAX_PACKET_SIZE ∧ l.head? = some 0x81 ∧
          57 + ONION_RETURN_1_SIZE ≤ l.length ∧
          p.payload = (l.drop 57).take (l.length - (57 + ONION_RETURN_1_SIZE))) ∧
      (∀ r0 : List Nat, ((0x81 : Nat) :: r0).length = ONION_MAX_PACKET_SIZE →
        (OnionRequest1.from_bytes (0x81 :: r0)).isSome = true) ∧
      (∀ l : List Nat, l.length = ONION_MAX_PACKET_SIZE + 1 →
        OnionRequest1.from_bytes l = none) ∧
      (∀ l : List Nat, l.length < 57 + ONION_RETURN_1_SIZE →
        OnionRequest1.from_bytes l = none) := by
  refine ⟨?_, ?_, ?_, ?_⟩
  · intro l p r h
    obtain ⟨h1, h2, h3, h4, _⟩ := onionRequest1_parse_inv h
    exact ⟨h1, h2, h3, h4⟩
  · intro r0 hlen
    refine OnionRequest1.from_bytes_success 0x81 r0 rfl (le_of_eq hlen) ?_
    simp only [List.length_cons, ONION_MAX_PACKET_SIZE] at hlen
    omega
  · intro l hlen
    exact OnionRequest1.from_bytes_oversized (by omega)
  · intro l hlen
    exact OnionRequest1.from_bytes_short hlen

/-- A well-formed wire input of exactly the maximum packet size. -/
def onionWireMax : List Nat := 0x81 :: List.replicate 1399 0

/-- A minimal well-formed wire input: tag plus 116 zero bytes. -/
def onionWireSmall : List Nat := 0x81 :: List.replicate 116 0

/-- The packet parsed from `onionWireSmall`. -/
def onionParsedSmall : OnionRequest1 :=
  ⟨nonceZero, pkZero, [0], ⟨nonceZero, List.replicate 35 0⟩⟩

/-- Witness for C2: all four parts of the parse policy at concrete
inputs - a successful small parse, a maximum-size parse, a one-over
rejection, and a too-short rejection. -/
theorem onion_request_1_parse_policy_witness :
    (onionWireSmall.length ≤ ONION_MAX_PACKET_SIZE ∧
        onionWireSmall.head? = some 0x81 ∧
        57 + ONION_RETURN_1_SIZE ≤ onionWireSmall.length ∧
        onionParsedSmall.payload =
          (onionWireSmall.drop 57).take
            (onionWireSmall.length - (57 + ONION_RETURN_1_SIZE))) ∧
      (OnionRequest1.from_bytes onionWireMax).isSome = true ∧
      OnionRequest1.from_bytes (List.replicate 1401 7) = none ∧
      OnionRequest1.from_bytes [0x81] = none := by
  refine ⟨onion_request_1_parse_policy.1 onionWireSmall onionParsedSmall []
      (by decide), ?_, ?_, ?_⟩
  · exact onion_request_1_parse_policy.2.1 (List.replicate 1399 0)
      (by rw [List.length_cons, List.length_replicate]; decide)
  · exact onion_request_1_parse_policy.2.2.1 (List.replicate 1401 7)
      (by rw [List.length_replicate]; decide)
  · exact onion_request_1_parse_policy.2.2.2 [0x81]
      (by simp [ONION_RETURN_1_SIZE])

/-- C6: serialization round-trips for the onion packet and its payload.
For every `OnionRequest1` whose onion return has the fixed 59-byte wire
size and whose total serialization fits in `ONION_MAX_PACKET_SIZE`,
parsing the serialization yields the packet back; for every
`OnionRequest1Payload`, parsing the serialization yields the payload
back unconditionally. -/
theorem onion_request_1_serialization_roundtrip :
    (∀ p : OnionRequest1, p.onion_return.to_bytes.length = ONION_RETURN_1_SIZE →
        p.to_bytes.length ≤ ONION_MAX_PACKET_SIZE →
        OnionRequest1.from_bytes p.to_bytes = some (p, [])) ∧
      ∀ q : OnionRequest1Payload,
        OnionRequest1Payload.from_bytes q.to_bytes = some (q, []) := by
  constructor
  · intro p horet hmax
    obtain ⟨nonce, tpk, payload, oret⟩ := p
    simp only [OnionRequest1.to_bytes, List.append_assoc] at hmax ⊢
    simp only [OnionRequest1.from_bytes]
    rw [if_pos hmax]
    simp only [if_true]
    simp only [nonce_parse_append, publicKey_parse_append]
    have h1 : payload.length =
        (payload ++ oret.to_bytes).length - ONION_RETURN_1_SIZE := by
      rw [List.length_append, horet]
      omega
    have h59 : ONION_RETURN_1_SIZE ≤ (payload ++ oret.to_bytes).length := by
      rw [List.length_append, horet]
      omega
    rw [if_pos h59, List.drop_left' h1]
    simp only [OnionReturn.from_bytes_to_bytes]
    rw [List.take_left' h1]
  · intro q
    obtain ⟨ip, tpk, inner⟩ := q
    simp only [OnionRequest1Payload.from_bytes, OnionRequest1Payload.to_bytes,
      List.append_assoc, ipPort_parse_append, publicKey_parse_append]

set_option maxRecDepth 4000 in
/-- Witness for C6 at a concrete packet and payload. -/
theorem onion_request_1_serialization_roundtrip_witness :
    OnionRequest1.from_bytes onionPacket0.to_bytes = some (onionPacket0, []) ∧
      OnionRequest1Payload.from_bytes payload0.to_bytes = some (payload0, []) :=
  ⟨onion_request_1_serialization_roundtrip.1 onionPacket0 (by decide) (by decide),
   onion_request_1_serialization_roundtrip.2 payload0⟩

/-- C8 (amended): decryption failure and post-decryption parse failure are
both reported under the single error kind `ErrorKind::Other` - the error
category never distinguishes the stages - although the error's diagnostic
message string does differ by stage (see the counterexample). -/
theorem get_payload_error_single_kind :
    (∀ (e : EncryptedCookie) (k : Key) (err : IoError),
        e.get_payload k = Except.error err → err.kind = ErrorKind.other) ∧
      ∀ (p : OnionRequest1) (s : PrecomputedKey) (err : IoError),
        p.get_payload s = Except.error err → err.kind = ErrorKind.other := by
  constructor
  · intro e k err h
    unfold EncryptedCookie.get_payload at h
    rcases ho : secretbox_open e.payload k with _ | d
    · simp only [ho, Except.error.injEq] at h
      rw [← h]
    · simp only [ho] at h
      rcases hc : Cookie.from_bytes d with _ | ⟨c, rest⟩
      · simp only [hc, Except.error.injEq] at h
        rw [← h]
      · simp [hc] at h
  · intro p s err h
    unfold OnionRequest1.get_payload at h
    rcases ho : secretbox_open p.payload s with _ | d
    · simp only [ho, Except.error.injEq] at h
      rw [← h]
    · simp only [ho] at h
      rcases hc : OnionRequest1Payload.from_bytes d with _ | ⟨q, rest⟩
      · simp only [hc, Except.error.injEq] at h
        rw [← h]
      · simp [hc] at h

/-- Witness for C8 (amended): the errors of both stages carry kind
`Other`, obtained through the theorem at concrete failing inputs. -/
theorem get_payload_error_single_kind_witness :
    cookieDecryptError.kind = ErrorKind.other ∧
      onionDecryptError.kind = ErrorKind.other :=
  ⟨get_payload_error_single_kind.1 (EncryptedCookie.mk nonceZero []) 0
      cookieDecryptError rfl,
    get_payload_error_single_kind.2 (OnionRequest1.mk nonceZero pkZero [] oret0) 0
      onionDecryptError rfl⟩

/-- C8 counterexample: the two failure stages are distinguishable by the
caller. A ciphertext that fails authentication yields the error with
message "Cookie decrypt error.", while a ciphertext that decrypts but
does not parse yields the differently-worded deserialize error; the two
error values are unequal (only their kinds coincide), so the returned
error does reveal which stage failed. -/
theorem get_payload_error_reveals_stage_cex :
    (EncryptedCookie.mk nonceZero []).get_payload 0 =
        Except.error cookieDecryptError ∧
      (EncryptedCookie.mk nonceZero (secretbox_seal [] 0)).get_payload 0 =
        Except.error cookieDeserializeError ∧
      cookieDecryptError.kind = cookieDeserializeError.kind ∧
      cookieDecryptError ≠ cookieDeserializeError := by
  refine ⟨rfl, rfl, rfl, by decide⟩

/-- The buffer bound in `hash` is met whenever the payload is at most 88
bytes, and then `hash` is the digest of nonce ‖ payload. -/
theorem EncryptedCookie.hash_eq (e : EncryptedCookie) (h : e.payload.length ≤ 88) :
    e.hash = some (sha512_hash (e.nonce.val ++ e.payload)) := by
  unfold EncryptedCookie.hash
  rw [if_pos (by
    simp [EncryptedCookie.to_bytes, List.length_append, e.nonce.property, NONCEBYTES]
    omega)]
  rfl

/-- C9: `hash()` is the SHA-512 digest of the wire serialization (24-byte
nonce followed by the encrypted payload); equal nonce and payload give
equal hashes, and changing the nonce alone or the payload alone changes
the hash. -/
theorem encrypted_cookie_hash_spec :
    (∀ e : EncryptedCookie, e.payload.length = 88 →
        e.hash = some (sha512_hash (e.nonce.val ++ e.payload))) ∧
      (∀ a b : EncryptedCookie, a.nonce = b.nonce → a.payload = b.payload →
        a.hash = b.hash) ∧
      (∀ (n1 n2 : Nonce) (pl : List Nat), n1 ≠ n2 → pl.length ≤ 88 →
        (EncryptedCookie.mk n1 pl).hash ≠ (EncryptedCookie.mk n2 pl).hash) ∧
      ∀ (n : Nonce) (p1 p2 : List Nat), p1 ≠ p2 → p1.length ≤ 88 →
        p2.length ≤ 88 →
        (EncryptedCookie.mk n p1).hash ≠ (EncryptedCookie.mk n p2).hash := by
  refine ⟨?_, ?_, ?_, ?_⟩
  · intro e he
    exact e.hash_eq (by omega)
  · intro a b hn hp
    obtain ⟨an, ap⟩ := a
    obtain ⟨bn, bp⟩ := b
    simp only at hn hp
    rw [hn, hp]
  · intro n1 n2 pl hne hlen heq
    rw [EncryptedCookie.hash_eq _ hlen, EncryptedCookie.hash_eq _ hlen] at heq
    simp only [Option.some.injEq, sha512_hash, Digest.mk.injEq] at heq
    exact hne (Subtype.ext
      (List.append_inj heq (n1.property.trans n2.property.symm)).1)
  · intro n p1 p2 hne h1 h2 heq
    rw [EncryptedCookie.hash_eq _ h1, EncryptedCookie.hash_eq _ h2] at heq
    simp only [Option.some.injEq, sha512_hash, Digest.mk.injEq] at heq
    exact hne (List.append_inj heq rfl).2

/-- Witness for C9 at concrete encrypted cookies. -/
theorem encrypted_cookie_hash_spec_witness :
    (EncryptedCookie.mk nonceZero (List.replicate 88 42)).hash =
        some (sha512_hash (nonceZero.val ++ List.replicate 88 42)) ∧
      (EncryptedCookie.mk nonceZero (List.replicate 88 42)).hash =
        (EncryptedCookie.mk nonceZero (List.replicate 88 42)).hash ∧
      (EncryptedCookie.mk nonceZero (List.replicate 88 42)).hash ≠
        (EncryptedCookie.mk nonceTwo (List.replicate 88 42)).hash ∧
      (EncryptedCookie.mk nonceZero (List.replicate 88 42)).hash ≠
        (EncryptedCookie.mk nonceZero (List.replicate 88 43)).hash :=
  ⟨encrypted_cookie_hash_spec.1 (EncryptedCookie.mk nonceZero (List.replicate 88 42))
      (by decide),
    encrypted_cookie_hash_spec.2.1 _ _ rfl rfl,
    encrypted_cookie_hash_spec.2.2.1 nonceZero nonceTwo (List.replicate 88 42)
      (by decide) (by decide),
    encrypted_cookie_hash_spec.2.2.2 nonceZero (List.replicate 88 42)
      (List.replicate 88 43) (by decide) (by decide) (by decide)⟩

/-- A 112-byte wire input for `EncryptedCookie::from_bytes`. -/
def encWire : List Nat := List.replicate 112 3

/-- The encrypted cookie parsed from `encWire`. -/
def encParsed : EncryptedCookie := ⟨⟨List.replicate 24 3, rfl⟩, List.replicate 88 3⟩

/-- C10: every `EncryptedCookie` produced by `new` or returned by
`from_bytes` carries exactly 88 payload bytes; under that invariant the
112-byte buffer inside `hash()` always suffices (the internal `unwrap`
cannot fail), while a hand-constructed value with a payload over 88 bytes
makes `hash()` panic. -/
theorem encrypted_cookie_payload_size_invariant :
    (∀ (k : Key) (n : Nonce) (c : Cookie),
        (EncryptedCookie.new k n c).payload.length = 88) ∧
      (∀ (l : List Nat) (e : EncryptedCookie) (r : List Nat),
        EncryptedCookie.from_bytes l = some (e, r) → e.payload.length = 88) ∧
      (∀ e : EncryptedCookie, e.payload.length = 88 → e.hash.isSome = true) ∧
      ∀ e : EncryptedCookie, 88 < e.payload.length → e.hash = none := by
  refine ⟨?_, ?_, ?_, ?_⟩
  · intro k n c
    simp only [EncryptedCookie.new, secretbox_seal_length, Cookie.to_bytes_length,
      MACBYTES]
  · intro l e r h
    unfold EncryptedCookie.from_bytes at h
    rcases hn : Nonce.from_bytes l with _ | ⟨n1, r1⟩
    · simp [hn] at h
    · simp only [hn] at h
      rcases ht : takeBytes 88 r1 with _ | ⟨pl, r2⟩
      · simp [ht] at h
      · simp only [ht, Option.some.injEq, Prod.mk.injEq] at h
        obtain ⟨hlen, hpl, _⟩ := takeBytes_some ht
        rw [← h.1]
        simp only [hpl, List.length_take]
        omega
  · intro e he
    rw [EncryptedCookie.hash_eq e (by omega)]
    rfl
  · intro e he
    unfold EncryptedCookie.hash
    rw [if_neg (by
      simp [EncryptedCookie.to_bytes, List.length_append, e.nonce.property, NONCEBYTES]
      omega)]

/-- Witness for C10: all four parts at concrete values, including a
hand-constructed cookie with an 89-byte payload whose `hash()` panics. -/
theorem encrypted_cookie_payload_size_invariant_witness :
    (EncryptedCookie.new 5 nonceZero cookie0).payload.length = 88 ∧
      encParsed.payload.length = 88 ∧
      encParsed.hash.isSome = true ∧
      (EncryptedCookie.mk nonceZero (List.replicate 89 0)).hash = none :=
  ⟨encrypted_cookie_payload_size_invariant.1 5 nonceZero cookie0,
    encrypted_cookie_payload_size_invariant.2.1 encWire encParsed [] (by decide),
    encrypted_cookie_payload_size_invariant.2.2.1 encParsed (by decide),
    encrypted_cookie_payload_size_invariant.2.2.2
      (EncryptedCookie.mk nonceZero (List.replicate 89 0)) (by decide)⟩
